import Mathlib

/-!
Verification of the markup-synthesis ("SSML") core of the AGMI Studio
repository, shallowly embedded in Lean 4.

Strings are modelled as `List Char` (one entry per Unicode scalar value).
JavaScript numbers are modelled as `ℚ`; `Math.round` is `jsRound` below
(round half toward positive infinity, which is JavaScript's behaviour).

The repository contains two versions of the SSML utility module.  The newer
one (the one imported by the application as `utils/ssml`, src/utils/api.ts
lines 337-495 of the concatenated sources) is embedded at the top level of
namespace `AGMI`; the older one (lines 100-336), which additionally has a
pause inserter (`insertPausing`), is embedded in namespace `AGMI.V1`.

Modelling notes for JavaScript built-ins:
* `String.prototype.toLowerCase` is modelled for ASCII letters only
  (`jsToLower`); no claim exercises non-ASCII case folding.
* `new RegExp("\\b" + escapeRegExp(text) + "\\b", "gi")` used with
  `String.prototype.replace` is modelled by `scanReplace`: a left-to-right,
  non-overlapping, case-insensitive scan for the literal `text` delimited by
  word boundaries (`\b`: a position whose two neighbours differ in
  word-character-ness, with the ends of the string counting as non-word).
  Because `escapeRegExp` escapes every regex metacharacter, the pattern is
  an exact literal and `escapeRegExp` itself needs no model.  Dollar-sign
  escape sequences inside the replacement string are not modelled; theorems
  that quantify over transcriptions therefore restrict to `$`-free ones.
-/

set_option maxRecDepth 8000

namespace AGMI

/-- ASCII lower-casing, modelling `String.prototype.toLowerCase` on the
character range the repository feeds it. -/
def jsToLower (c : Char) : Char :=
  if c = 'A' then 'a' else if c = 'B' then 'b' else if c = 'C' then 'c'
  else if c = 'D' then 'd' else if c = 'E' then 'e' else if c = 'F' then 'f'
  else if c = 'G' then 'g' else if c = 'H' then 'h' else if c = 'I' then 'i'
  else if c = 'J' then 'j' else if c = 'K' then 'k' else if c = 'L' then 'l'
  else if c = 'M' then 'm' else if c = 'N' then 'n' else if c = 'O' then 'o'
  else if c = 'P' then 'p' else if c = 'Q' then 'q' else if c = 'R' then 'r'
  else if c = 'S' then 's' else if c = 'T' then 't' else if c = 'U' then 'u'
  else if c = 'V' then 'v' else if c = 'W' then 'w' else if c = 'X' then 'x'
  else if c = 'Y' then 'y' else if c = 'Z' then 'z' else c

/-- `language.toLowerCase()` on a whole string. -/
def toLowerStr (l : List Char) : List Char := l.map jsToLower

/-- JavaScript's `\w` character class: `[A-Za-z0-9_]`. -/
def isWordChar (c : Char) : Bool :=
  decide (('A' ≤ c ∧ c ≤ 'Z') ∨ ('a' ≤ c ∧ c ≤ 'z') ∨ ('0' ≤ c ∧ c ≤ '9') ∨ c = '_')

/-- Word-character test on an optional character; the absent character
(start or end of the string) counts as a non-word character. -/
def isWordOpt : Option Char → Bool
  | none => false
  | some c => isWordChar c

/-- The `\b` word-boundary assertion between two (optional) neighbouring
characters. -/
def wordB (a b : Option Char) : Bool := isWordOpt a != isWordOpt b

/-- `Math.round`: round half toward positive infinity. -/
def jsRound (q : ℚ) : ℤ := ⌊q + 1/2⌋

/-- The decimal digit characters, used to print numbers. -/
def digitChar (d : Nat) : Char :=
  if d = 0 then '0' else if d = 1 then '1' else if d = 2 then '2'
  else if d = 3 then '3' else if d = 4 then '4' else if d = 5 then '5'
  else if d = 6 then '6' else if d = 7 then '7' else if d = 8 then '8' else '9'

/-- Fuelled decimal printing of a natural number (most significant digit
first); `fuel ≥ 1` suffices for any `n` up to `10 ^ fuel - 1`. -/
def natCharsAux : Nat → Nat → List Char
  | 0, _ => []
  | fuel + 1, n =>
    if n < 10 then [digitChar n]
    else natCharsAux fuel (n / 10) ++ [digitChar (n % 10)]

/-- Decimal representation of a natural number, as printed by JavaScript
template-literal interpolation. -/
def natChars (n : Nat) : List Char := natCharsAux (n + 1) n

/-- Decimal representation of an integer. -/
def intChars (i : ℤ) : List Char :=
  if i < 0 then '-' :: natChars i.natAbs else natChars i.natAbs

/-! ### The escaper (`escapeXml`, src/utils/api.ts lines 342-349)

The source chains five global character replacements, ampersand first.
`rep1 c s` models one global single-character replacement. -/

def rep1 (c : Char) (s : List Char) (l : List Char) : List Char :=
  l.flatMap fun x => if x = c then s else [x]

/-- `escapeXml`: ampersand first, then the four bracket/quote characters. -/
def escapeXml (l : List Char) : List Char :=
  rep1 '\x27' "&apos;".data
    (rep1 '"' "&quot;".data
      (rep1 '>' "&gt;".data
        (rep1 '<' "&lt;".data
          (rep1 '&' "&amp;".data l))))

/-- The effect of the whole escaping chain on a single character. -/
def escChar (c : Char) : List Char :=
  if c = '&' then "&amp;".data
  else if c = '<' then "&lt;".data
  else if c = '>' then "&gt;".data
  else if c = '"' then "&quot;".data
  else if c = '\x27' then "&apos;".data
  else [c]

/-- Does this text start with the tail of one of the five escape entities
(the part after the ampersand)? -/
def entityOk (l : List Char) : Bool :=
  "amp;".data.isPrefixOf l || "lt;".data.isPrefixOf l || "gt;".data.isPrefixOf l
    || "quot;".data.isPrefixOf l || "apos;".data.isPrefixOf l

/-- A text is free of unescaped reserved characters when it contains no
`<`, `>`, `"`, `'` at all and every `&` starts one of the five escape
entities. -/
def unescapedFree : List Char → Bool
  | [] => true
  | c :: rest =>
    (if c = '&' then entityOk rest
     else !(c = '<' || c = '>' || c = '"' || c = '\x27')) && unescapedFree rest

/-! ### The term matcher (`insertPhonemes`, src/utils/api.ts lines 382-413;
the older copy at lines 178-205 has the same behaviour) -/

/-- Case-insensitive character comparison, modelling the regex `i` flag. -/
def ciEq (a b : Char) : Bool := jsToLower a == jsToLower b

/-- Try to consume the literal pattern (first argument) case-insensitively
from the front of the text; on success return the consumed source
characters and the remainder. -/
def matchCI : List Char → List Char → Option (List Char × List Char)
  | [], l => some ([], l)
  | _ :: _, [] => none
  | p :: ps, c :: cs =>
    if ciEq p c then (matchCI ps cs).map fun m => (c :: m.1, m.2) else none

/-- Try to match `\b pat \b` (case-insensitively) at the current position;
`prev` is the character just before the position, if any. -/
def tryMatch (pat : List Char) (prev : Option Char) (l : List Char) :
    Option (List Char × List Char) :=
  match pat with
  | [] => none
  | _ :: _ =>
    match matchCI pat l with
    | none => none
    | some (m, r) =>
      if wordB prev l.head? && wordB m.getLast? r.head? then some (m, r) else none

/-- Fuelled left-to-right global replacement of `\b pat \b` by `repl`,
modelling `String.prototype.replace` with a `gi` regex whose pattern is a
literal.  Each step consumes at least one character, so fuel equal to the
length of the text suffices. -/
def scanReplaceAux (pat repl : List Char) : Nat → Option Char → List Char → List Char
  | 0, _, l => l
  | _ + 1, _, [] => []
  | fuel + 1, prev, c :: rest =>
    match tryMatch pat prev (c :: rest) with
    | some (m, r) => repl ++ scanReplaceAux pat repl fuel m.getLast? r
    | none => c :: scanReplaceAux pat repl fuel (some c) rest

/-- Global word-boundary-delimited case-insensitive replacement. -/
def scanReplace (pat repl l : List Char) : List Char :=
  scanReplaceAux pat repl l.length none l

/-! ### Data model -/

/-- A glossary term: `text` plus an optional IPA transcription, where the
empty list models both an absent and an empty (hence falsy) `ipa` field.
The remaining fields of the source `Term` record (id, category, match
count, confidence, status) play no part in markup synthesis. -/
structure TermR where
  text : List Char
  ipa : List Char
deriving DecidableEq, Repr

/-- The TTS vendor enumeration (src/types.ts). -/
inductive TTSVendor
  | google
  | elevenlabs
  | openai
deriving DecidableEq, Repr

/-- The settings consumed by the newer SSML module: vendor plus the three
prosody sliders it destructures (`emphasis`, `solemnity`, `pacing`). -/
structure TTSSettings where
  vendor : TTSVendor
  emphasis : ℚ
  solemnity : ℚ
  pacing : ℚ

/-- The replacement template
`<phoneme alphabet="ipa" ph="${term.ipa}">${term.text}</phoneme>`. -/
def phonemeTemplate (t : TermR) : List Char :=
  "<phoneme alphabet=\"ipa\" ph=\"".data ++ t.ipa ++ "\">".data
    ++ t.text ++ "</phoneme>".data

/-- One step of a stable descending-by-text-length insertion: the new term
goes in front of the first strictly shorter one, i.e. after every term of
greater or equal length, exactly as JavaScript's stable
`sort((a, b) => b.text.length - a.text.length)` orders ties. -/
def insertByLen (t : TermR) : List TermR → List TermR
  | [] => [t]
  | u :: us =>
    if u.text.length < t.text.length then t :: u :: us else u :: insertByLen t us

/-- Stable sort of the term list, longest text first. -/
def sortByLenDesc (l : List TermR) : List TermR :=
  l.foldl (fun acc t => insertByLen t acc) []

/-- `insertPhonemes` (src/utils/api.ts lines 382-413): with an empty term
list, escape and return; otherwise filter out terms with a falsy `ipa` or
`text`, sort longest-text-first, and for the full-markup vendor replace
each term's occurrences by its phoneme span, one sequential global
replacement per term; other vendors leave the text untouched, and the
result is escaped only for them. -/
def insertPhonemes (content : List Char) (terms : List TermR) (vendor : TTSVendor) :
    List Char :=
  if terms = [] then escapeXml content
  else
    let sorted := sortByLenDesc (terms.filter fun t => !t.ipa.isEmpty && !t.text.isEmpty)
    let result := sorted.foldl
      (fun acc t =>
        if vendor = TTSVendor.google then scanReplace t.text (phonemeTemplate t) acc
        else acc)
      content
    if vendor = TTSVendor.google then result else escapeXml result

/-! ### Parameter mappers of the newer module (src/utils/api.ts 354-377) -/

/-- `getEmphasisLevel` (lines 354-359). -/
def getEmphasisLevel (emphasis : ℚ) : List Char :=
  if emphasis < 1/2 then "reduced".data
  else if emphasis < 1 then "none".data
  else if emphasis < 3/2 then "moderate".data
  else "strong".data

/-- The integer percentage `Math.round(pacing * 100)` behind
`getPacingRate`. -/
def pacingPercent (pacing : ℚ) : ℤ := jsRound (pacing * 100)

/-- `getPacingRate` (lines 364-367): `${Math.round(pacing * 100)}%`. -/
def getPacingRate (pacing : ℚ) : List Char :=
  intChars (pacingPercent pacing) ++ "%".data

/-- `getPitchFromSolemnity` (lines 372-377):
`Math.round((1 - solemnity) * 20)` with an explicit `+` for non-negative
values, `%` suffix. -/
def getPitchFromSolemnity (solemnity : ℚ) : List Char :=
  let adjustment := jsRound ((1 - solemnity) * 20)
  if 0 ≤ adjustment then '+' :: natChars adjustment.natAbs ++ "%".data
  else intChars adjustment ++ "%".data

/-! ### The composer (`generateSSML`, src/utils/api.ts lines 425-458) -/

/-- `generateSSML`: full prosody/emphasis envelope with phoneme spans for
the full-markup vendor; minimal envelope around once-escaped plain content
for the others. -/
def generateSSML (content : List Char) (terms : List TermR) (settings : TTSSettings)
    (language : List Char) : List Char :=
  let processedContent := insertPhonemes content terms settings.vendor
  let rate := getPacingRate settings.pacing
  let pitch := getPitchFromSolemnity settings.solemnity
  let emphasisLevel := getEmphasisLevel settings.emphasis
  if settings.vendor = TTSVendor.google then
    "<speak version=\"1.0\" xml:lang=\"".data ++ toLowerStr language
      ++ "\">\n  <prosody rate=\"".data ++ rate
      ++ "\" pitch=\"".data ++ pitch
      ++ "\">\n    <emphasis level=\"".data ++ emphasisLevel
      ++ "\">\n      ".data ++ processedContent
      ++ "\n    </emphasis>\n  </prosody>\n</speak>".data
  else
    "<speak version=\"1.0\" xml:lang=\"".data ++ toLowerStr language
      ++ "\">\n  <prosody rate=\"".data ++ rate
      ++ "\">\n    ".data ++ escapeXml content
      ++ "\n  </prosody>\n</speak>".data

/-- `generateSSMLPreview` (lines 463-471): truncate the content to 500
characters, append an ellipsis when something was cut, then run the full
pipeline. -/
def generateSSMLPreview (content : List Char) (terms : List TermR)
    (settings : TTSSettings) (language : List Char) : List Char :=
  generateSSML
    (content.take 500 ++ if 500 < content.length then "...".data else [])
    terms settings language

/-- `vendorSupportsSSML` (lines 476-478). -/
def vendorSupportsSSML (vendor : TTSVendor) : Bool :=
  vendor = TTSVendor.google

/-- The generic limited-markup-support warning string. -/
def limitedWarn : List Char := "This vendor has limited SSML support.".data

/-- The phoneme-overrides-will-be-ignored warning string. -/
def ipaWarn : List Char := "IPA phoneme tags will be ignored for this vendor.".data

/-- `getSSMLWarnings` (lines 483-495). -/
def getSSMLWarnings (vendor : TTSVendor) (hasIPA : Bool) : List (List Char) :=
  if vendorSupportsSSML vendor then []
  else limitedWarn :: if hasIPA then [ipaWarn] else []

/-- Number of (possibly overlapping) occurrences of a pattern in a text. -/
def countPat (p : List Char) : List Char → Nat
  | [] => 0
  | c :: rest => (if p.isPrefixOf (c :: rest) then 1 else 0) + countPat p rest

/-! ## The older SSML module (src/utils/api.ts lines 100-336)

Its `escapeXml`, `escapeRegExp`, `insertPhonemes`, `generateSSMLPreview`,
`vendorSupportsSSML` and `getSSMLWarnings` are character-for-character the
functions embedded above (its `insertPhonemes` merges the two non-Google
no-op branches into one, with identical behaviour), so they are not
duplicated; only the functions unique to this version are embedded here. -/

namespace V1

/-- The settings record destructured by the older module
(src/types.ts `TTSSettings`): five prosody sliders.  The `voiceId` and
`format` fields play no part in markup generation. -/
structure TTSSettings where
  vendor : TTSVendor
  ambience : ℚ
  pacing : ℚ
  pitch : ℚ
  expressiveness : ℚ
  pausing : ℚ

/-- `getExpressivenessLevel` (lines 117-122). -/
def getExpressivenessLevel (expressiveness : ℚ) : List Char :=
  if expressiveness ≤ 1/5 then "none".data
  else if expressiveness ≤ 1/2 then "reduced".data
  else if expressiveness ≤ 4/5 then "moderate".data
  else "strong".data

/-- `getPacingRate` (lines 127-138): `Math.round(80 + (pacing - 0.5) * 40)`
with a `%` suffix. -/
def getPacingRate (pacing : ℚ) : List Char :=
  intChars (jsRound (80 + (pacing - 1/2) * 40)) ++ "%".data

/-- `getPitchShift` (lines 143-150): `Math.round((pitch - 1.0) * 8)`
semitones, explicit `+` only for strictly positive values. -/
def getPitchShift (pitch : ℚ) : List Char :=
  let semitones := jsRound ((pitch - 1) * 8)
  if 0 < semitones then '+' :: natChars semitones.natAbs ++ "st".data
  else intChars semitones ++ "st".data

/-- `getAmbienceVolume` (lines 168-173): `Math.round((ambience - 0.5) * 4)`
decibel, explicit `+` only for strictly positive values. -/
def getAmbienceVolume (ambience : ℚ) : List Char :=
  let db := jsRound ((ambience - 1/2) * 4)
  if 0 < db then '+' :: natChars db.natAbs ++ "dB".data
  else intChars db ++ "dB".data

/-- JavaScript's `\s` class, on the characters this repository's content
can contain (ASCII whitespace). -/
def isWs (c : Char) : Bool :=
  c = ' ' || c = '\t' || c = '\n' || c = '\r' || c = '\x0b' || c = '\x0c'

/-- Fuelled single pass of one `replace(/([punct])\s+/g, "$1 brk ")` call:
whenever a punctuation character is followed by at least one whitespace
character, the whole whitespace run is consumed and replaced by
`" brk "`; scanning resumes after the run.  Each step consumes at least
one character, so fuel equal to the length of the text suffices. -/
def insertBreaksAux (puncts brk : List Char) : Nat → List Char → List Char
  | 0, l => l
  | _ + 1, [] => []
  | fuel + 1, c :: rest =>
    if puncts.contains c && (match rest.head? with
        | some w => isWs w
        | none => false) then
      c :: ' ' :: (brk ++ ' ' :: insertBreaksAux puncts brk fuel (rest.dropWhile isWs))
    else c :: insertBreaksAux puncts brk fuel rest

/-- One global punctuation-plus-whitespace replacement pass. -/
def insertBreaks (puncts brk l : List Char) : List Char :=
  insertBreaksAux puncts brk l.length l

/-- `insertPausing` (lines 210-246): no-op at pausing ≤ 0.2; otherwise a
sentence-punctuation pass with a `Math.round(400 + (pausing - 0.2) * 600)`
millisecond break, then, only when pausing > 0.5, a comma pass with a
`Math.round(200 + (pausing - 0.2) * 300)` millisecond break. -/
def insertPausing (content : List Char) (pausing : ℚ) : List Char :=
  if pausing ≤ 1/5 then content
  else
    let commaTime := jsRound (200 + (pausing - 1/5) * 300)
    let sentenceTime := jsRound (400 + (pausing - 1/5) * 600)
    let sentenceBreak :=
      "<break time=\"".data ++ intChars sentenceTime ++ "ms\"/>".data
    let result := insertBreaks ['.', '?', '!'] sentenceBreak content
    if 1/2 < pausing then
      let commaBreak :=
        "<break time=\"".data ++ intChars commaTime ++ "ms\"/>".data
      insertBreaks [','] commaBreak result
    else result

/-- The older `generateSSML` (lines 258-299): phoneme insertion, then — for
the full-markup vendor only — pause insertion on the processed content,
then the prosody (rate/pitch/volume) and emphasis envelope; other vendors
get the minimal envelope around once-escaped plain content. -/
def generateSSML (content : List Char) (terms : List TermR) (settings : TTSSettings)
    (language : List Char) : List Char :=
  let processedContent := insertPhonemes content terms settings.vendor
  let paused :=
    if settings.vendor = TTSVendor.google then insertPausing processedContent settings.pausing
    else processedContent
  let rate := getPacingRate settings.pacing
  let pitchVal := getPitchShift settings.pitch
  let volume := getAmbienceVolume settings.ambience
  let emphasisLevel := getExpressivenessLevel settings.expressiveness
  if settings.vendor = TTSVendor.google then
    "<speak version=\"1.0\" xml:lang=\"".data ++ toLowerStr language
      ++ "\">\n  <prosody rate=\"".data ++ rate
      ++ "\" pitch=\"".data ++ pitchVal
      ++ "\" volume=\"".data ++ volume
      ++ "\">\n    <emphasis level=\"".data ++ emphasisLevel
      ++ "\">\n      ".data ++ paused
      ++ "\n    </emphasis>\n  </prosody>\n</speak>".data
  else
    "<speak version=\"1.0\" xml:lang=\"".data ++ toLowerStr language
      ++ "\">\n  <prosody rate=\"".data ++ rate
      ++ "\">\n    ".data ++ escapeXml content
      ++ "\n  </prosody>\n</speak>".data

end V1

/-! ## Helper lemmas -/

/-- Evaluate `Math.round` from a bracketing of `q + 1/2`. -/
theorem jsRound_eq {q : ℚ} {n : ℤ} (h1 : (n : ℚ) ≤ q + 1/2) (h2 : q + 1/2 < n + 1) :
    jsRound q = n := by
  unfold jsRound
  rw [Int.floor_eq_iff]
  exact ⟨h1, by exact_mod_cast h2⟩

/-- `Math.round` is monotone. -/
theorem jsRound_mono {q r : ℚ} (h : q ≤ r) : jsRound q ≤ jsRound r :=
  Int.floor_le_floor (by linarith)

/-- `Math.round` is strictly monotone across a gap of at least one. -/
theorem jsRound_lt {q r : ℚ} (h : q + 1 ≤ r) : jsRound q < jsRound r := by
  unfold jsRound
  have h1 : ⌊q + 1/2 + 1⌋ ≤ ⌊r + 1/2⌋ := Int.floor_le_floor (by linarith)
  rw [Int.floor_add_one] at h1
  omega

/-- A prefix is in particular a contiguous substring. -/
theorem subOfPfx {α : Type} {p l : List α} (h : p <+: l) : p <:+: l := by
  rcases h with ⟨t, rfl⟩
  exact ⟨[], t, rfl⟩

/-- A suffix is in particular a contiguous substring. -/
theorem subOfSfx {α : Type} {p l : List α} (h : p <:+ l) : p <:+: l := by
  rcases h with ⟨s, rfl⟩
  exact ⟨s, [], by simp⟩

/-- Discard a leading block: if the pattern does not occur inside the
block `L` and no nonempty suffix of `L` starts the pattern, then an
occurrence of the pattern in `L ++ y` lies entirely in `y`. -/
theorem chompStep {p : List Char} (L y : List Char)
    (h1 : ¬ p <:+: L)
    (h2 : ∀ v, v <:+ L → v <+: p → v = [])
    (h : p <:+: L ++ y) : p <:+: y := by
  induction L with
  | nil => simpa using h
  | cons a L ih =>
    rw [List.cons_append] at h
    rcases List.infix_cons_iff.mp h with hpre | hinf
    · by_cases hlen : p.length ≤ (a :: L).length
      · have hAL : (a :: L) <+: a :: (L ++ y) := ⟨y, by simp⟩
        exact absurd (subOfPfx (List.prefix_of_prefix_length_le hpre hAL hlen)) h1
      · push_neg at hlen
        have hAL : (a :: L) <+: a :: (L ++ y) := ⟨y, by simp⟩
        have h3 : (a :: L) <+: p := List.prefix_of_prefix_length_le hAL hpre hlen.le
        exact absurd (h2 (a :: L) (List.suffix_refl _) h3) (by simp)
    · refine ih (fun hc => h1 (hc.trans (subOfSfx (List.suffix_cons a L)))) ?_ hinf
      exact fun v hv hvp => h2 v (hv.trans (List.suffix_cons a L)) hvp

/-- `chompStep` with the suffix condition checked over the (finite) list
of tails, so that it can be discharged by `decide` for concrete blocks. -/
theorem chompLit {p : List Char} (L y : List Char)
    (h1 : ¬ p <:+: L)
    (h2 : ∀ v ∈ L.tails, v <+: p → v = [])
    (h : p <:+: L ++ y) : p <:+: y :=
  chompStep L y h1 (fun v hv => h2 v ((List.mem_tails v L).mpr hv)) h

/-- Discard a leading block that does not contain the head character of
the pattern at all. -/
theorem chompFree {q : List Char} {c : Char} (x y : List Char) (hx : c ∉ x)
    (h : (c :: q) <:+: x ++ y) : (c :: q) <:+: y := by
  refine chompStep x y (fun hc => hx (hc.subset (List.mem_cons_self c q))) ?_ h
  intro v hv hvp
  match v, hvp with
  | [], _ => rfl
  | v0 :: vs, hvp =>
    obtain ⟨rfl, -⟩ := List.cons_prefix_cons.mp hvp
    exact absurd (hv.subset (List.mem_cons_self v0 vs)) hx

/-- Every digit character is one of the ten digits. -/
theorem digitChar_mem (d : Nat) : digitChar d ∈ "0123456789".data := by
  unfold digitChar
  split_ifs <;> decide

/-- Printed naturals consist of digit characters only. -/
theorem natCharsAux_sub (f : Nat) : ∀ (n : Nat), ∀ c ∈ natCharsAux f n, c ∈ "0123456789".data := by
  induction f with
  | zero => intro n c hc; simp [natCharsAux] at hc
  | succ f ih =>
    intro n c hc
    rw [natCharsAux] at hc
    split at hc
    · rcases List.mem_singleton.mp hc with rfl
      exact digitChar_mem n
    · rcases List.mem_append.mp hc with hc | hc
      · exact ih _ c hc
      · rcases List.mem_singleton.mp hc with rfl
        exact digitChar_mem _

/-- Printed integers consist of digits and the minus sign. -/
theorem intChars_sub (i : ℤ) : ∀ c ∈ intChars i, c ∈ "-0123456789".data := by
  intro c hc
  unfold intChars at hc
  have digits : ∀ x ∈ "0123456789".data, x ∈ "-0123456789".data := by decide
  split at hc
  · rcases List.mem_cons.mp hc with rfl | hc
    · decide
    · exact digits c (natCharsAux_sub _ _ c hc)
  · exact digits c (natCharsAux_sub _ _ c hc)

/-- The pacing-rate string never contains `<`. -/
theorem lt_not_mem_getPacingRate (m : ℚ) : '<' ∉ getPacingRate m := by
  intro hc
  unfold getPacingRate at hc
  rcases List.mem_append.mp hc with hc | hc
  · have := intChars_sub _ _ hc
    simp at this
  · simp at hc

/-- One global single-character replacement distributes over cons. -/
theorem rep1_cons (c : Char) (s : List Char) (x : Char) (xs : List Char) :
    rep1 c s (x :: xs) = (if x = c then s else [x]) ++ rep1 c s xs := by
  simp [rep1]

/-- One global single-character replacement distributes over append. -/
theorem rep1_append (c : Char) (s l1 l2 : List Char) :
    rep1 c s (l1 ++ l2) = rep1 c s l1 ++ rep1 c s l2 := by
  simp [rep1]

/-- The five escape entities, expanded to explicit character lists. -/
theorem dataAmp : "&amp;".data = ['&', 'a', 'm', 'p', ';'] := rfl

/-- Expansion of the `&lt;` entity. -/
theorem dataLt : "&lt;".data = ['&', 'l', 't', ';'] := rfl

/-- Expansion of the `&gt;` entity. -/
theorem dataGt : "&gt;".data = ['&', 'g', 't', ';'] := rfl

/-- Expansion of the `&quot;` entity. -/
theorem dataQuot : "&quot;".data = ['&', 'q', 'u', 'o', 't', ';'] := rfl

/-- Expansion of the `&apos;` entity. -/
theorem dataApos : "&apos;".data = ['&', 'a', 'p', 'o', 's', ';'] := rfl

/-- The escaping chain processes one character at a time. -/
theorem escapeXml_cons (x : Char) (xs : List Char) :
    escapeXml (x :: xs) = escChar x ++ escapeXml xs := by
  by_cases h1 : x = '&'
  · subst h1
    simp [escapeXml, escChar, rep1_cons, rep1_append, dataAmp, dataLt, dataGt, dataQuot, dataApos]
  · by_cases h2 : x = '<'
    · subst h2
      simp [escapeXml, escChar, rep1_cons, rep1_append, dataAmp, dataLt, dataGt, dataQuot, dataApos]
    · by_cases h3 : x = '>'
      · subst h3
        simp [escapeXml, escChar, rep1_cons, rep1_append, dataAmp, dataLt, dataGt, dataQuot, dataApos]
      · by_cases h4 : x = '"'
        · subst h4
          simp [escapeXml, escChar, rep1_cons, rep1_append, dataAmp, dataLt, dataGt, dataQuot, dataApos]
        · by_cases h5 : x = '\x27'
          · subst h5
            simp [escapeXml, escChar, rep1_cons, rep1_append, dataAmp, dataLt, dataGt, dataQuot, dataApos]
          · simp [escapeXml, escChar, rep1_cons, rep1_append, h1, h2, h3, h4, h5]

/-- The escaping chain is the per-character map `escChar`. -/
theorem escapeXml_eq (l : List Char) : escapeXml l = l.flatMap escChar := by
  induction l with
  | nil => rfl
  | cons x xs ih => rw [escapeXml_cons, ih, List.flatMap_cons]

/-- Escaped text never contains `<`, `>`, `"` or `'`. -/
theorem escapeXml_no_reserved (l : List Char) :
    ∀ x ∈ escapeXml l, ¬(x = '<' ∨ x = '>' ∨ x = '"' ∨ x = '\x27') := by
  intro x hx
  rw [escapeXml_eq] at hx
  rcases List.mem_flatMap.mp hx with ⟨c, -, hc⟩
  unfold escChar at hc
  split_ifs at hc with g1 g2 g3 g4 g5
  · exact (show ∀ y ∈ "&amp;".data, ¬(y = '<' ∨ y = '>' ∨ y = '"' ∨ y = '\x27') by decide) x hc
  · exact (show ∀ y ∈ "&lt;".data, ¬(y = '<' ∨ y = '>' ∨ y = '"' ∨ y = '\x27') by decide) x hc
  · exact (show ∀ y ∈ "&gt;".data, ¬(y = '<' ∨ y = '>' ∨ y = '"' ∨ y = '\x27') by decide) x hc
  · exact (show ∀ y ∈ "&quot;".data, ¬(y = '<' ∨ y = '>' ∨ y = '"' ∨ y = '\x27') by decide) x hc
  · exact (show ∀ y ∈ "&apos;".data, ¬(y = '<' ∨ y = '>' ∨ y = '"' ∨ y = '\x27') by decide) x hc
  · rcases List.mem_singleton.mp hc with rfl
    tauto

/-- Escaped text never contains `<`. -/
theorem lt_not_mem_escapeXml (l : List Char) : '<' ∉ escapeXml l := by
  intro hc
  exact escapeXml_no_reserved l '<' hc (by decide)

/-- Prepending the escape of one character preserves
absence-of-unescaped-reserved-characters. -/
theorem unescapedFree_escChar (c : Char) (rest : List Char) :
    unescapedFree (escChar c ++ rest) = unescapedFree rest := by
  by_cases h1 : c = '&'
  · subst h1
    show unescapedFree ('&' :: 'a' :: 'm' :: 'p' :: ';' :: rest) = unescapedFree rest
    simp [unescapedFree, entityOk, List.isPrefixOf]
  · by_cases h2 : c = '<'
    · subst h2
      show unescapedFree ('&' :: 'l' :: 't' :: ';' :: rest) = unescapedFree rest
      simp [unescapedFree, entityOk, List.isPrefixOf]
    · by_cases h3 : c = '>'
      · subst h3
        show unescapedFree ('&' :: 'g' :: 't' :: ';' :: rest) = unescapedFree rest
        simp [unescapedFree, entityOk, List.isPrefixOf]
      · by_cases h4 : c = '"'
        · subst h4
          show unescapedFree ('&' :: 'q' :: 'u' :: 'o' :: 't' :: ';' :: rest) = unescapedFree rest
          simp [unescapedFree, entityOk, List.isPrefixOf]
        · by_cases h5 : c = '\x27'
          · subst h5
            show unescapedFree ('&' :: 'a' :: 'p' :: 'o' :: 's' :: ';' :: rest) = unescapedFree rest
            simp [unescapedFree, entityOk, List.isPrefixOf]
          · have hesc : escChar c = [c] := by simp [escChar, h1, h2, h3, h4, h5]
            rw [hesc, List.singleton_append]
            simp [unescapedFree, h1, h2, h3, h4, h5]

/-- Applying the escaper once leaves no unescaped reserved characters. -/
theorem unescapedFree_escapeXml (l : List Char) : unescapedFree (escapeXml l) = true := by
  induction l with
  | nil => decide
  | cons c cs ih => rw [escapeXml_cons, unescapedFree_escChar]; exact ih

/-! ## Claim theorems -/

/-- C8: for every vendor and flag, `getSSMLWarnings` is empty exactly for
the full-markup vendor; otherwise its first element is the generic
limited-markup warning and the phoneme-overrides warning follows exactly
when some term has a transcription. -/
theorem C8_warnings_contract (v : TTSVendor) (b : Bool) :
    (getSSMLWarnings v b = [] ↔ vendorSupportsSSML v = true)
    ∧ ((getSSMLWarnings v b).head? = some limitedWarn ↔ vendorSupportsSSML v = false)
    ∧ (ipaWarn ∈ getSSMLWarnings v b ↔ vendorSupportsSSML v = false ∧ b = true)
    ∧ getSSMLWarnings v b
      = (if vendorSupportsSSML v then [] else limitedWarn :: if b then [ipaWarn] else []) := by
  cases v <;> cases b <;> decide

/-- C9 counterexample: the emphasis value exactly on the 0.5 boundary maps
to the level `none`, the bucket above the boundary, not to the lower
bucket `reduced` that the claim's rounding-down rule names. -/
theorem C9_counterexample :
    getEmphasisLevel (1/2) = "none".data ∧ "none".data ≠ "reduced".data := by
  constructor
  · unfold getEmphasisLevel
    rw [if_neg (by norm_num), if_pos (by norm_num)]
  · decide

/-- C9 amended: `getEmphasisLevel` maps every emphasis strength to one of
the four levels through the strict thresholds 0.5, 1.0, 1.5, and a value
exactly on a boundary belongs to the upper bucket (0.5 to none, 1.0 to
moderate, 1.5 to strong). -/
theorem C9_amended_thresholds (e : ℚ) :
    (getEmphasisLevel e = "reduced".data ↔ e < 1/2)
    ∧ (getEmphasisLevel e = "none".data ↔ 1/2 ≤ e ∧ e < 1)
    ∧ (getEmphasisLevel e = "moderate".data ↔ 1 ≤ e ∧ e < 3/2)
    ∧ (getEmphasisLevel e = "strong".data ↔ 3/2 ≤ e)
    ∧ getEmphasisLevel e
      ∈ ["reduced".data, "none".data, "moderate".data, "strong".data] := by
  unfold getEmphasisLevel
  split_ifs with h1 h2 h3
  · exact ⟨iff_of_true rfl h1,
      iff_of_false (by decide) (by rintro ⟨h, -⟩; linarith),
      iff_of_false (by decide) (by rintro ⟨h, -⟩; linarith),
      iff_of_false (by decide) (by intro h; linarith),
      by decide⟩
  · exact ⟨iff_of_false (by decide) h1,
      iff_of_true rfl ⟨le_of_not_lt h1, h2⟩,
      iff_of_false (by decide) (by rintro ⟨h, -⟩; linarith),
      iff_of_false (by decide) (by intro h; linarith),
      by decide⟩
  · exact ⟨iff_of_false (by decide) h1,
      iff_of_false (by decide) (by rintro ⟨-, h⟩; exact h2 h),
      iff_of_true rfl ⟨le_of_not_lt h2, h3⟩,
      iff_of_false (by decide) (by intro h; linarith),
      by decide⟩
  · exact ⟨iff_of_false (by decide) h1,
      iff_of_false (by decide) (by rintro ⟨-, h⟩; exact h2 h),
      iff_of_false (by decide) (by rintro ⟨-, h⟩; exact h3 h),
      iff_of_true rfl (le_of_not_lt h3),
      by decide⟩

/-- C6 counterexample: the distinct in-range multipliers 1 and 1.004 both
map to the rate `100%`, so the extracted percentage is not strictly
monotone. -/
theorem C6_counterexample :
    ((1 : ℚ)/2 ≤ 1 ∧ (1 : ℚ) < 251/250 ∧ (251 : ℚ)/250 ≤ 2)
    ∧ getPacingRate 1 = getPacingRate (251/250)
    ∧ pacingPercent 1 = pacingPercent (251/250) := by
  have h1 : pacingPercent 1 = 100 := by
    unfold pacingPercent
    exact jsRound_eq (by norm_num) (by norm_num)
  have h2 : pacingPercent (251/250) = 100 := by
    unfold pacingPercent
    exact jsRound_eq (by norm_num) (by norm_num)
  refine ⟨⟨by norm_num, by norm_num, by norm_num⟩, ?_, by rw [h1, h2]⟩
  unfold getPacingRate
  rw [h1, h2]

/-- C6 amended: the percentage `Math.round(m * 100)` behind
`getPacingRate` is monotone on [0.5, 2], and strictly monotone whenever
the two multipliers are at least 0.01 apart. -/
theorem C6_amended_monotone (m1 m2 : ℚ) (hr1 : 1/2 ≤ m1) (hr2 : m2 ≤ 2) (h : m1 ≤ m2) :
    pacingPercent m1 ≤ pacingPercent m2
    ∧ (1/100 ≤ m2 - m1 → pacingPercent m1 < pacingPercent m2)
    ∧ getPacingRate m1 = intChars (pacingPercent m1) ++ "%".data := by
  exact ⟨jsRound_mono (by linarith), fun hgap => jsRound_lt (by linarith), rfl⟩

/-- C6 amended, witness at the endpoints 0.5 and 2. -/
theorem C6_amended_monotone_witness :
    ((1 : ℚ)/2 ≤ 1/2 ∧ (2 : ℚ) ≤ 2 ∧ (1 : ℚ)/2 ≤ 2 ∧ (1 : ℚ)/100 ≤ 2 - 1/2)
    ∧ pacingPercent (1/2) < pacingPercent 2 := by
  refine ⟨⟨le_refl _, le_refl _, by norm_num, by norm_num⟩, ?_⟩
  exact (C6_amended_monotone (1/2) 2 (le_refl _) (le_refl _) (by norm_num)).2.1 (by norm_num)

/-- C7: the preview is the full pipeline applied to the truncated content:
for content over 500 characters it equals `generateSSML` on the first 500
characters plus the ellipsis; for content of at most 500 characters it
equals `generateSSML` on the unchanged content (no ellipsis). -/
theorem C7_preview_truncation (content : List Char) (terms : List TermR)
    (settings : TTSSettings) (language : List Char) :
    (500 < content.length →
      generateSSMLPreview content terms settings language
        = generateSSML (content.take 500 ++ "...".data) terms settings language)
    ∧ (content.length ≤ 500 →
      generateSSMLPreview content terms settings language
        = generateSSML content terms settings language) := by
  constructor
  · intro h
    unfold generateSSMLPreview
    rw [if_pos h]
  · intro h
    unfold generateSSMLPreview
    rw [if_neg (by omega), List.append_nil, List.take_of_length_le h]

/-- C7 witness: a 501-character content is truncated with an ellipsis and
a 2-character content passes through unchanged. -/
theorem C7_preview_truncation_witness :
    (500 < (List.replicate 501 'a').length
      ∧ generateSSMLPreview (List.replicate 501 'a') []
          ⟨TTSVendor.elevenlabs, 1, 1, 1⟩ "en".data
        = generateSSML ((List.replicate 501 'a').take 500 ++ "...".data) []
          ⟨TTSVendor.elevenlabs, 1, 1, 1⟩ "en".data)
    ∧ ("hi".data.length ≤ 500
      ∧ generateSSMLPreview "hi".data [] ⟨TTSVendor.elevenlabs, 1, 1, 1⟩ "en".data
        = generateSSML "hi".data [] ⟨TTSVendor.elevenlabs, 1, 1, 1⟩ "en".data) := by
  constructor
  · exact ⟨by simp, (C7_preview_truncation _ _ _ _).1 (by simp)⟩
  · exact ⟨by decide, (C7_preview_truncation _ _ _ _).2 (by decide)⟩

/-- Matching a pattern against itself consumes everything. -/
theorem matchCI_self (l : List Char) : matchCI l l = some (l, []) := by
  induction l with
  | nil => rfl
  | cons c cs ih => simp [matchCI, ciEq, ih]

/-- A whole-string word-delimited pattern matches the whole string when
its first and last characters are word characters. -/
theorem tryMatch_self (l : List Char) (h1 : l ≠ []) (h3 : isWordOpt l.head? = true)
    (h4 : isWordOpt l.getLast? = true) : tryMatch l none l = some (l, []) := by
  obtain ⟨c, cs, rfl⟩ := List.exists_cons_of_ne_nil h1
  have hc : isWordChar c = true := by simpa [isWordOpt] using h3
  simp only [tryMatch, matchCI_self]
  cases hg : (c :: cs).getLast? with
  | none =>
    rw [List.getLast?_eq_none_iff] at hg
    exact absurd hg (by simp)
  | some d =>
    rw [hg] at h4
    have hd : isWordChar d = true := by simpa [isWordOpt] using h4
    simp [wordB, isWordOpt, hc, hd]

/-- Running out of text ends the scan. -/
theorem scanReplaceAux_nil (pat repl : List Char) (f : Nat) (prev : Option Char) :
    scanReplaceAux pat repl f prev [] = [] := by
  cases f <;> rfl

/-- Replacing a whole-word pattern inside exactly that pattern yields the
bare replacement. -/
theorem scanReplace_self (l repl : List Char) (h1 : l ≠ []) (h3 : isWordOpt l.head? = true)
    (h4 : isWordOpt l.getLast? = true) : scanReplace l repl l = repl := by
  obtain ⟨c, cs, rfl⟩ := List.exists_cons_of_ne_nil h1
  unfold scanReplace
  rw [List.length_cons]
  simp only [scanReplaceAux]
  rw [tryMatch_self _ (by simp) h3 h4]
  simp [scanReplaceAux_nil]

/-- C10: the term matcher embeds the transcription character-for-character
as the `ph` attribute and the stored term text as the element body, with
no escaping applied to either (hypotheses: nonempty text whose first and
last characters are word characters so the word-boundary match fires,
nonempty transcription, and no `$` in either field, `$` being the
replacement-string escape character this embedding does not model). -/
theorem C10_raw_attribute (t : TermR) (h1 : t.text ≠ []) (h2 : t.ipa ≠ [])
    (h3 : isWordOpt t.text.head? = true) (h4 : isWordOpt t.text.getLast? = true)
    (h5 : '$' ∉ t.ipa) (h6 : '$' ∉ t.text) :
    insertPhonemes t.text [t] TTSVendor.google
      = "<phoneme alphabet=\"ipa\" ph=\"".data ++ t.ipa ++ "\">".data
        ++ t.text ++ "</phoneme>".data := by
  have hfil : List.filter (fun u => !u.ipa.isEmpty && !u.text.isEmpty) [t] = [t] := by
    obtain ⟨c, cs, hc⟩ := List.exists_cons_of_ne_nil h1
    obtain ⟨i, is, hi⟩ := List.exists_cons_of_ne_nil h2
    simp [List.filter, hc, hi]
  simp only [insertPhonemes, hfil, sortByLenDesc, insertByLen, List.foldl_cons,
    List.foldl_nil, if_true, reduceCtorEq, ite_true, ite_false]
  rw [scanReplace_self _ _ h1 h3 h4]
  rfl

/-- C10 witness: a transcription containing a double quote lands verbatim
and unescaped inside the `ph` attribute. -/
theorem C10_raw_attribute_witness :
    (("Ani".data : List Char) ≠ [] ∧ ("x\"y".data : List Char) ≠ []
      ∧ isWordOpt ("Ani".data : List Char).head? = true
      ∧ isWordOpt ("Ani".data : List Char).getLast? = true
      ∧ '$' ∉ ("x\"y".data : List Char) ∧ '$' ∉ ("Ani".data : List Char))
    ∧ insertPhonemes "Ani".data [⟨"Ani".data, "x\"y".data⟩] TTSVendor.google
      = "<phoneme alphabet=\"ipa\" ph=\"x\"y\">Ani</phoneme>".data := by
  refine ⟨⟨by decide, by decide, by decide, by decide, by decide, by decide⟩, ?_⟩
  rw [C10_raw_attribute ⟨"Ani".data, "x\"y".data⟩ (by decide) (by decide) (by decide)
    (by decide) (by decide) (by decide)]
  decide

/-- C1: on the claim's own input the sequential per-term replacement of
the term matcher wraps `Armenia` a second time inside the span already
produced for `Western Armenia`, yielding two nested phoneme spans instead
of the single span the claim requires. -/
theorem C1_nested_spans :
    insertPhonemes "Western Armenia was affected".data
      [⟨"Armenia".data, "a1".data⟩, ⟨"Western Armenia".data, "w2".data⟩] TTSVendor.google
      = ("<phoneme alphabet=\"ipa\" ph=\"w2\">Western <phoneme alphabet=\"ipa\" "
          ++ "ph=\"a1\">Armenia</phoneme></phoneme> was affected").data
    ∧ countPat "<phoneme".data
        (insertPhonemes "Western Armenia was affected".data
          [⟨"Armenia".data, "a1".data⟩, ⟨"Western Armenia".data, "w2".data⟩]
          TTSVendor.google) = 2 := by
  constructor
  · decide
  · decide

/-- C5: the end-to-end example: full-markup vendor, pacing 0.95, emphasis
0.85, solemnity 1.2, language `en` — the output is the expected document,
its root carries `xml:lang="en"`, its prosody rate reads `95%`, and the
term is wrapped in a phoneme element carrying the verbatim transcription. -/
theorem C5_end_to_end :
    generateSSML "Welcome to Tsitsernakaberd.".data
      [⟨"Tsitsernakaberd".data, "t͡sit͡sɛrnɑkɑˈbɛrt".data⟩]
      ⟨TTSVendor.google, 17/20, 6/5, 19/20⟩ "en".data
      = ("<speak version=\"1.0\" xml:lang=\"en\">\n  <prosody rate=\"95%\" pitch=\"-4%\">"
          ++ "\n    <emphasis level=\"none\">\n      Welcome to <phoneme alphabet=\"ipa\" "
          ++ "ph=\"t͡sit͡sɛrnɑkɑˈbɛrt\">Tsitsernakaberd</phoneme>."
          ++ "\n    </emphasis>\n  </prosody>\n</speak>").data
    ∧ "xml:lang=\"en\"".data <:+: generateSSML "Welcome to Tsitsernakaberd.".data
        [⟨"Tsitsernakaberd".data, "t͡sit͡sɛrnɑkɑˈbɛrt".data⟩]
        ⟨TTSVendor.google, 17/20, 6/5, 19/20⟩ "en".data
    ∧ "rate=\"95%\"".data <:+: generateSSML "Welcome to Tsitsernakaberd.".data
        [⟨"Tsitsernakaberd".data, "t͡sit͡sɛrnɑkɑˈbɛrt".data⟩]
        ⟨TTSVendor.google, 17/20, 6/5, 19/20⟩ "en".data
    ∧ ("<phoneme alphabet=\"ipa\" ph=\"t͡sit͡sɛrnɑkɑˈbɛrt\">Tsitsernakaberd</phoneme>").data
        <:+: generateSSML "Welcome to Tsitsernakaberd.".data
        [⟨"Tsitsernakaberd".data, "t͡sit͡sɛrnɑkɑˈbɛrt".data⟩]
        ⟨TTSVendor.google, 17/20, 6/5, 19/20⟩ "en".data := by
  have e1 : getPacingRate (19/20 : ℚ) = "95%".data := by
    have hp : pacingPercent (19/20 : ℚ) = 95 := jsRound_eq (by norm_num) (by norm_num)
    unfold getPacingRate
    rw [hp]
    decide
  have e2 : getPitchFromSolemnity (6/5 : ℚ) = "-4%".data := by
    have hj : jsRound ((1 - (6 : ℚ)/5) * 20) = -4 := jsRound_eq (by norm_num) (by norm_num)
    simp only [getPitchFromSolemnity, hj]
    decide
  have e3 : getEmphasisLevel (17/20 : ℚ) = "none".data := by
    unfold getEmphasisLevel
    rw [if_neg (by norm_num), if_pos (by norm_num)]
  have heq : generateSSML "Welcome to Tsitsernakaberd.".data
      [⟨"Tsitsernakaberd".data, "t͡sit͡sɛrnɑkɑˈbɛrt".data⟩]
      ⟨TTSVendor.google, 17/20, 6/5, 19/20⟩ "en".data
      = ("<speak version=\"1.0\" xml:lang=\"en\">\n  <prosody rate=\"95%\" pitch=\"-4%\">"
          ++ "\n    <emphasis level=\"none\">\n      Welcome to <phoneme alphabet=\"ipa\" "
          ++ "ph=\"t͡sit͡sɛrnɑkɑˈbɛrt\">Tsitsernakaberd</phoneme>."
          ++ "\n    </emphasis>\n  </prosody>\n</speak>").data := by
    simp only [generateSSML, e1, e2, e3]
    decide
  exact ⟨heq, by rw [heq]; decide, by rw [heq]; decide, by rw [heq]; decide⟩

/-- C2 counterexample: for the full-markup vendor with a nonempty term
list, the content is embedded with no escaping at all: the ampersand of
`Bread & Salt` survives verbatim in the output and no `&amp;` appears
anywhere in it, so the input is escaped zero times, not exactly once. -/
theorem C2_counterexample :
    insertPhonemes "Bread & Salt".data [⟨"Ani".data, "x".data⟩] TTSVendor.google
      = "Bread & Salt".data
    ∧ "& ".data <:+: generateSSML "Bread & Salt".data [⟨"Ani".data, "x".data⟩]
        ⟨TTSVendor.google, 1, 1, 1⟩ "en".data
    ∧ ¬ "&amp;".data <:+: generateSSML "Bread & Salt".data [⟨"Ani".data, "x".data⟩]
        ⟨TTSVendor.google, 1, 1, 1⟩ "en".data := by
  have e1 : getPacingRate (1 : ℚ) = "100%".data := by
    have hp : pacingPercent (1 : ℚ) = 100 := jsRound_eq (by norm_num) (by norm_num)
    unfold getPacingRate
    rw [hp]
    decide
  have e2 : getPitchFromSolemnity (1 : ℚ) = "+0%".data := by
    have hj : jsRound ((1 - (1 : ℚ)) * 20) = 0 := jsRound_eq (by norm_num) (by norm_num)
    simp only [getPitchFromSolemnity, hj]
    decide
  have e3 : getEmphasisLevel (1 : ℚ) = "moderate".data := by
    unfold getEmphasisLevel
    rw [if_neg (by norm_num), if_neg (by norm_num), if_pos (by norm_num)]
  have heq : generateSSML "Bread & Salt".data [⟨"Ani".data, "x".data⟩]
      ⟨TTSVendor.google, 1, 1, 1⟩ "en".data
      = ("<speak version=\"1.0\" xml:lang=\"en\">\n  <prosody rate=\"100%\" pitch=\"+0%\">"
          ++ "\n    <emphasis level=\"moderate\">\n      Bread & Salt"
          ++ "\n    </emphasis>\n  </prosody>\n</speak>").data := by
    simp only [generateSSML, e1, e2, e3]
    decide
  exact ⟨by decide, by rw [heq]; decide, by rw [heq]; decide⟩

/-- C2 amended: the escaper applied once leaves no unescaped reserved
characters, and the pipeline embeds the content as exactly-once-escaped
text for every vendor without markup support and for the full-markup
vendor with an empty term list; with the full-markup vendor and a
nonempty term list the content is embedded unescaped (see the
counterexample). -/
theorem C2_amended_escaping (content : List Char) (terms : List TermR)
    (settings : TTSSettings) (language : List Char) :
    unescapedFree (escapeXml content) = true
    ∧ (settings.vendor ≠ TTSVendor.google →
        generateSSML content terms settings language
          = "<speak version=\"1.0\" xml:lang=\"".data ++ toLowerStr language
            ++ "\">\n  <prosody rate=\"".data ++ getPacingRate settings.pacing
            ++ "\">\n    ".data ++ escapeXml content
            ++ "\n  </prosody>\n</speak>".data)
    ∧ (terms = [] → settings.vendor = TTSVendor.google →
        generateSSML content terms settings language
          = "<speak version=\"1.0\" xml:lang=\"".data ++ toLowerStr language
            ++ "\">\n  <prosody rate=\"".data ++ getPacingRate settings.pacing
            ++ "\" pitch=\"".data ++ getPitchFromSolemnity settings.solemnity
            ++ "\">\n    <emphasis level=\"".data ++ getEmphasisLevel settings.emphasis
            ++ "\">\n      ".data ++ escapeXml content
            ++ "\n    </emphasis>\n  </prosody>\n</speak>".data) := by
  refine ⟨unescapedFree_escapeXml content, ?_, ?_⟩
  · intro hv
    simp only [generateSSML]
    rw [if_neg hv]
  · rintro rfl hv
    simp only [generateSSML, insertPhonemes, ite_true, if_true]
    rw [if_pos hv]

/-- C2 amended, witness: a content containing all five reserved
characters, once through a no-markup vendor and once through the
full-markup vendor with no terms. -/
theorem C2_amended_escaping_witness :
    ((TTSVendor.elevenlabs ≠ TTSVendor.google)
      ∧ unescapedFree (escapeXml "a<b&c\"d'e>f".data) = true
      ∧ generateSSML "a<b&c\"d'e>f".data [⟨"Ani".data, "x".data⟩]
          ⟨TTSVendor.elevenlabs, 1, 1, 1⟩ "en".data
        = "<speak version=\"1.0\" xml:lang=\"".data ++ toLowerStr "en".data
            ++ "\">\n  <prosody rate=\"".data ++ getPacingRate 1
            ++ "\">\n    ".data ++ escapeXml "a<b&c\"d'e>f".data
            ++ "\n  </prosody>\n</speak>".data)
    ∧ (([] : List TermR) = []
      ∧ generateSSML "a&b".data [] ⟨TTSVendor.google, 1, 1, 1⟩ "en".data
        = "<speak version=\"1.0\" xml:lang=\"".data ++ toLowerStr "en".data
            ++ "\">\n  <prosody rate=\"".data ++ getPacingRate 1
            ++ "\" pitch=\"".data ++ getPitchFromSolemnity 1
            ++ "\">\n    <emphasis level=\"".data ++ getEmphasisLevel 1
            ++ "\">\n      ".data ++ escapeXml "a&b".data
            ++ "\n    </emphasis>\n  </prosody>\n</speak>".data) := by
  constructor
  · refine ⟨by decide, (C2_amended_escaping "a<b&c\"d'e>f".data [⟨"Ani".data, "x".data⟩]
      ⟨TTSVendor.elevenlabs, 1, 1, 1⟩ "en".data).1, ?_⟩
    exact (C2_amended_escaping _ _ _ _).2.1 (by decide)
  · exact ⟨rfl, (C2_amended_escaping "a&b".data [] ⟨TTSVendor.google, 1, 1, 1⟩
      "en".data).2.2 rfl rfl⟩

/-- C3: for every vendor whose capability record denies markup support,
and for every content, term list and prosody settings, the output
contains no `<phoneme`, `<emphasis` or `<break` substring: it is exactly
the minimal speak/prosody envelope around the once-escaped content
(stated for any language tag whose lower-casing contains no `<`). -/
theorem C3_degradation (content : List Char) (terms : List TermR)
    (settings : TTSSettings) (language : List Char)
    (hv : vendorSupportsSSML settings.vendor = false)
    (hl : '<' ∉ toLowerStr language) :
    ¬ "<phoneme".data <:+: generateSSML content terms settings language
    ∧ ¬ "<emphasis".data <:+: generateSSML content terms settings language
    ∧ ¬ "<break".data <:+: generateSSML content terms settings language
    ∧ generateSSML content terms settings language
      = "<speak version=\"1.0\" xml:lang=\"".data ++ toLowerStr language
        ++ "\">\n  <prosody rate=\"".data ++ getPacingRate settings.pacing
        ++ "\">\n    ".data ++ escapeXml content
        ++ "\n  </prosody>\n</speak>".data := by
  have hng : ¬ settings.vendor = TTSVendor.google := by
    intro h
    rw [h] at hv
    exact absurd hv (by decide)
  have henv : generateSSML content terms settings language
      = "<speak version=\"1.0\" xml:lang=\"".data ++ toLowerStr language
        ++ "\">\n  <prosody rate=\"".data ++ getPacingRate settings.pacing
        ++ "\">\n    ".data ++ escapeXml content
        ++ "\n  </prosody>\n</speak>".data := by
    simp only [generateSSML]
    rw [if_neg hng]
  refine ⟨?_, ?_, ?_, henv⟩
  · intro h
    rw [henv] at h
    simp only [List.append_assoc] at h
    replace h := chompLit _ _ (by decide) (by decide) h
    replace h := chompFree _ _ hl h
    replace h := chompLit _ _ (by decide) (by decide) h
    replace h := chompFree _ _ (lt_not_mem_getPacingRate settings.pacing) h
    replace h := chompFree _ _ (by decide) h
    replace h := chompFree _ _ (lt_not_mem_escapeXml content) h
    exact absurd h (by decide)
  · intro h
    rw [henv] at h
    simp only [List.append_assoc] at h
    replace h := chompLit _ _ (by decide) (by decide) h
    replace h := chompFree _ _ hl h
    replace h := chompLit _ _ (by decide) (by decide) h
    replace h := chompFree _ _ (lt_not_mem_getPacingRate settings.pacing) h
    replace h := chompFree _ _ (by decide) h
    replace h := chompFree _ _ (lt_not_mem_escapeXml content) h
    exact absurd h (by decide)
  · intro h
    rw [henv] at h
    simp only [List.append_assoc] at h
    replace h := chompLit _ _ (by decide) (by decide) h
    replace h := chompFree _ _ hl h
    replace h := chompLit _ _ (by decide) (by decide) h
    replace h := chompFree _ _ (lt_not_mem_getPacingRate settings.pacing) h
    replace h := chompFree _ _ (by decide) h
    replace h := chompFree _ _ (lt_not_mem_escapeXml content) h
    exact absurd h (by decide)

/-- C3 witness: the ElevenLabs vendor with a transcribed term and markup
characters in the content. -/
theorem C3_degradation_witness :
    vendorSupportsSSML TTSVendor.elevenlabs = false
    ∧ '<' ∉ toLowerStr "en".data
    ∧ ¬ "<phoneme".data <:+: generateSSML "a<b&c".data [⟨"Ani".data, "ɑni".data⟩]
        ⟨TTSVendor.elevenlabs, 1, 1, 1⟩ "en".data := by
  exact ⟨by decide, by decide,
    (C3_degradation "a<b&c".data [⟨"Ani".data, "ɑni".data⟩]
      ⟨TTSVendor.elevenlabs, 1, 1, 1⟩ "en".data (by decide) (by decide)).1⟩

/-- C4: running the older module's full pipeline on a term whose matched
text contains a sentence-punctuation character followed by whitespace
(`Mt. Ararat`) makes the pause inserter write a `<break>` directive into
the inner text of the phoneme override span, which the claim forbids. -/
theorem C4_break_inside_span :
    V1.generateSSML "Mt. Ararat rises".data [⟨"Mt. Ararat".data, "m1".data⟩]
      ⟨TTSVendor.google, 1/2, 1, 1, 1/2, 1⟩ "en".data
      = ("<speak version=\"1.0\" xml:lang=\"en\">\n  <prosody rate=\"100%\" pitch=\"0st\" "
          ++ "volume=\"0dB\">\n    <emphasis level=\"reduced\">\n      "
          ++ "<phoneme alphabet=\"ipa\" ph=\"m1\">Mt. <break time=\"880ms\"/> "
          ++ "Ararat</phoneme> rises\n    </emphasis>\n  </prosody>\n</speak>").data
    ∧ "ph=\"m1\">Mt. <break".data <:+: V1.generateSSML "Mt. Ararat rises".data
        [⟨"Mt. Ararat".data, "m1".data⟩] ⟨TTSVendor.google, 1/2, 1, 1, 1/2, 1⟩ "en".data := by
  have e1 : V1.getPacingRate (1 : ℚ) = "100%".data := by
    have hj : jsRound (80 + ((1 : ℚ) - 1/2) * 40) = 100 := jsRound_eq (by norm_num) (by norm_num)
    unfold V1.getPacingRate
    rw [hj]
    decide
  have e2 : V1.getPitchShift (1 : ℚ) = "0st".data := by
    have hj : jsRound (((1 : ℚ) - 1) * 8) = 0 := jsRound_eq (by norm_num) (by norm_num)
    simp only [V1.getPitchShift, hj]
    decide
  have e3 : V1.getAmbienceVolume ((1 : ℚ)/2) = "0dB".data := by
    have hj : jsRound (((1 : ℚ)/2 - 1/2) * 4) = 0 := jsRound_eq (by norm_num) (by norm_num)
    simp only [V1.getAmbienceVolume, hj]
    decide
  have e4 : V1.getExpressivenessLevel ((1 : ℚ)/2) = "reduced".data := by
    unfold V1.getExpressivenessLevel
    rw [if_neg (by norm_num), if_pos (by norm_num)]
  have e5 : ∀ content : List Char, V1.insertPausing content 1
      = V1.insertBreaks [','] ("<break time=\"".data ++ intChars 440 ++ "ms\"/>".data)
          (V1.insertBreaks ['.', '?', '!']
            ("<break time=\"".data ++ intChars 880 ++ "ms\"/>".data) content) := by
    intro content
    have mc : jsRound (200 + ((1 : ℚ) - 1/5) * 300) = 440 := jsRound_eq (by norm_num) (by norm_num)
    have ms : jsRound (400 + ((1 : ℚ) - 1/5) * 600) = 880 := jsRound_eq (by norm_num) (by norm_num)
    simp only [V1.insertPausing, mc, ms]
    rw [if_neg (by norm_num), if_pos (by norm_num)]
  have heq : V1.generateSSML "Mt. Ararat rises".data [⟨"Mt. Ararat".data, "m1".data⟩]
      ⟨TTSVendor.google, 1/2, 1, 1, 1/2, 1⟩ "en".data
      = ("<speak version=\"1.0\" xml:lang=\"en\">\n  <prosody rate=\"100%\" pitch=\"0st\" "
          ++ "volume=\"0dB\">\n    <emphasis level=\"reduced\">\n      "
          ++ "<phoneme alphabet=\"ipa\" ph=\"m1\">Mt. <break time=\"880ms\"/> "
          ++ "Ararat</phoneme> rises\n    </emphasis>\n  </prosody>\n</speak>").data := by
    simp only [V1.generateSSML, e1, e2, e3, e4, e5]
    decide
  exact ⟨heq, by rw [heq]; decide⟩

end AGMI
